import Mathlib

/-!
Verification of the spawn pipeline of the `unshare` process-spawning library.

This file gives a shallow embedding of the pure/algorithmic core of the
library: the 5-byte error frame written by the child and decoded by the
parent (src/child.rs `fail_errno`, src/run.rs `Command::after_start`,
src/error.rs `ErrorCode::from_i32`), the wake-up handshake loop in the
child, the parent's post-clone sequence and its failure cleanup, the
descriptor planner `prepare_descriptors`, the id-map writing phase of the
child, `format_pid_fixed`, and the small `Command` builder operations
(`reset_fds`, `close_fds`, `file_descriptor`) together with
`Child::wait`'s exit-status translation.

Machine integers are modelled as `Int`/`Nat` with explicit wrapping:
an `i32` value is an `Int` in `[-2^31, 2^31)`; its two's-complement bit
pattern is a `Nat` below `2^32`.  Rust's `>>` on `i32` is an arithmetic
shift, i.e. floor division by a power of two, which is Lean's `Int`
division `/` (Euclidean division coincides with floor division for a
positive divisor).  Rust's truncating cast `as u8` of an `i32` keeps the
low byte, i.e. `% 256` (Lean's `Int.emod` is non-negative for a positive
modulus).  Fallible system calls are modelled as explicit environment
parameters (`Except` values listing what each call returned).
-/

/-- Interpret a bit pattern as a signed 32-bit integer (two's complement). -/
def toI32 (n : Nat) : Int :=
  if n % 2 ^ 32 < 2 ^ 31 then ((n % 2 ^ 32 : Nat) : Int)
  else ((n % 2 ^ 32 : Nat) : Int) - 2 ^ 32

/-- Rust's truncating cast `as u8` applied to an `i32` value: the low byte. -/
def asU8 (x : Int) : Nat := (x % 256).toNat

/-- The error kinds the child can report, src/error.rs `ErrorCode`
(discriminants 1..=13). -/
inductive ErrorCode where
  | CreatePipe
  | Fork
  | Exec
  | Chdir
  | ParentDeathSignal
  | PipeError
  | StdioError
  | SetUser
  | ChangeRoot
  | SetIdMap
  | SetPGid
  | SetNs
  | CapSet
deriving DecidableEq, Repr

/-- Numeric discriminant of an `ErrorCode` (the `as u8` / `as i32` value). -/
def ErrorCode.valN : ErrorCode → Nat
  | .CreatePipe => 1
  | .Fork => 2
  | .Exec => 3
  | .Chdir => 4
  | .ParentDeathSignal => 5
  | .PipeError => 6
  | .StdioError => 7
  | .SetUser => 8
  | .ChangeRoot => 9
  | .SetIdMap => 10
  | .SetPGid => 11
  | .SetNs => 12
  | .CapSet => 13

/-- src/error.rs `Error`: the user-visible typed error. Variants that carry
no errno and are irrelevant to the claims keep their payload shape. -/
inductive Error where
  | NixError
  | UnknownError
  | CreatePipe (errno : Int)
  | Fork (errno : Int)
  | Exec (errno : Int)
  | Chdir (errno : Int)
  | ParentDeathSignal (errno : Int)
  | PipeError (errno : Int)
  | WaitError (errno : Int)
  | StdioError (errno : Int)
  | SetUser (errno : Int)
  | ChangeRoot (errno : Int)
  | SetIdMap (errno : Int)
  | AuxCommandExited (status : Int)
  | AuxCommandKilled (sig : Int)
  | SetPGid (errno : Int)
  | SetNs (errno : Int)
  | CapSet (errno : Int)
deriving DecidableEq, Repr

/-- src/error.rs `ErrorCode::wrap`. -/
def ErrorCode.wrap : ErrorCode → Int → Error
  | .CreatePipe, e => Error.CreatePipe e
  | .Fork, e => Error.Fork e
  | .Exec, e => Error.Exec e
  | .Chdir, e => Error.Chdir e
  | .ParentDeathSignal, e => Error.ParentDeathSignal e
  | .PipeError, e => Error.PipeError e
  | .StdioError, e => Error.StdioError e
  | .SetUser, e => Error.SetUser e
  | .ChangeRoot, e => Error.ChangeRoot e
  | .SetIdMap, e => Error.SetIdMap e
  | .SetPGid, e => Error.SetPGid e
  | .SetNs, e => Error.SetNs e
  | .CapSet, e => Error.CapSet e

/-- src/error.rs `ErrorCode::from_i32`: the guard chain `c if c == C::X as i32`. -/
def ErrorCode.from_i32 (code : Int) (errno : Int) : Error :=
  if code = (ErrorCode.valN .CreatePipe : Int) then Error.CreatePipe errno
  else if code = (ErrorCode.valN .Fork : Int) then Error.Fork errno
  else if code = (ErrorCode.valN .Exec : Int) then Error.Exec errno
  else if code = (ErrorCode.valN .Chdir : Int) then Error.Chdir errno
  else if code = (ErrorCode.valN .ParentDeathSignal : Int) then Error.ParentDeathSignal errno
  else if code = (ErrorCode.valN .PipeError : Int) then Error.PipeError errno
  else if code = (ErrorCode.valN .StdioError : Int) then Error.StdioError errno
  else if code = (ErrorCode.valN .SetUser : Int) then Error.SetUser errno
  else if code = (ErrorCode.valN .ChangeRoot : Int) then Error.ChangeRoot errno
  else if code = (ErrorCode.valN .SetIdMap : Int) then Error.SetIdMap errno
  else if code = (ErrorCode.valN .SetPGid : Int) then Error.SetPGid errno
  else if code = (ErrorCode.valN .SetNs : Int) then Error.SetNs errno
  else if code = (ErrorCode.valN .CapSet : Int) then Error.CapSet errno
  else Error.UnknownError

/-- src/error.rs `Error::raw_os_error`. -/
def Error.raw_os_error : Error → Option Int
  | .NixError => none
  | .UnknownError => none
  | .CreatePipe e => some e
  | .Fork e => some e
  | .Exec e => some e
  | .Chdir e => some e
  | .ParentDeathSignal e => some e
  | .PipeError e => some e
  | .WaitError e => some e
  | .StdioError e => some e
  | .SetUser e => some e
  | .ChangeRoot e => some e
  | .SetIdMap e => some e
  | .AuxCommandExited _ => none
  | .AuxCommandKilled _ => none
  | .SetPGid e => some e
  | .SetNs e => some e
  | .CapSet e => some e

/-- src/child.rs `fail_errno`: the 5 bytes written to the output fd.
`errno >> k` is an arithmetic shift of the `i32`, hence `Int` floor
division by `2^k`; the `as u8` casts keep the low byte of each shift. -/
def fail_errno_bytes (code : ErrorCode) (errno : Int) : List Nat :=
  [code.valN,
   asU8 (errno / 2 ^ 24),
   asU8 (errno / 2 ^ 16),
   asU8 (errno / 2 ^ 8),
   asU8 errno]

/-- Everything src/child.rs `fail_errno(code, errno, output)` does: it
writes `fail_errno_bytes` (5 bytes) to fd `output` and calls `_exit(127)`. -/
structure FailAct where
  outFd : Int
  bytes : List Nat
  exitCode : Nat
deriving DecidableEq, Repr

/-- src/child.rs `fail_errno`. -/
def fail_errno (code : ErrorCode) (errno : Int) (output : Int) : FailAct :=
  { outFd := output, bytes := fail_errno_bytes code errno, exitCode := 127 }

/-- src/run.rs `Command::after_start` lines 322-324: decoding of the four
errno bytes read from the error pipe.  Each `(err[i] as i32) << k` wraps
into the 32-bit pattern, the `|`s combine the patterns, and the result is
read back as a signed `i32`. -/
def decode_errno (b1 b2 b3 b4 : Nat) : Int :=
  toI32 (((b1 <<< 24) % 2 ^ 32 |||
          (b2 <<< 16) % 2 ^ 32 |||
          (b3 <<< 8) % 2 ^ 32 |||
          b4 % 2 ^ 32) % 2 ^ 32)

/-- src/run.rs `Command::after_start` lines 318-328: dispatch on the number
of bytes read from the error pipe; 0 bytes is success, 5 bytes decode into
a typed error, anything else is `UnknownError`. -/
def read_error_frame (bytes : List Nat) : Except Error Unit :=
  match bytes with
  | [] => .ok ()
  | [c, b1, b2, b3, b4] =>
      .error (ErrorCode.from_i32 (c : Int) (decode_errno b1 b2 b3 b4))
  | _ => .error Error.UnknownError

theorem asU8_lt (x : Int) : asU8 x < 256 := by
  unfold asU8; omega

/-- Disjoint byte lanes: the `|`s in the decoder add up. -/
theorem bytes_lor (b1 b2 b3 b4 : Nat)
    (h1 : b1 < 256) (h2 : b2 < 256) (h3 : b3 < 256) (h4 : b4 < 256) :
    (b1 <<< 24) % 2 ^ 32 ||| (b2 <<< 16) % 2 ^ 32 ||| (b3 <<< 8) % 2 ^ 32 ||| b4 % 2 ^ 32
      = b1 * 2 ^ 24 + b2 * 2 ^ 16 + b3 * 2 ^ 8 + b4 := by
  rw [Nat.shiftLeft_eq, Nat.shiftLeft_eq, Nat.shiftLeft_eq]
  have e1 : (b1 * 2 ^ 24) % 2 ^ 32 = b1 * 2 ^ 24 := Nat.mod_eq_of_lt (by omega)
  have e2 : (b2 * 2 ^ 16) % 2 ^ 32 = b2 * 2 ^ 16 := Nat.mod_eq_of_lt (by omega)
  have e3 : (b3 * 2 ^ 8) % 2 ^ 32 = b3 * 2 ^ 8 := Nat.mod_eq_of_lt (by omega)
  have e4 : b4 % 2 ^ 32 = b4 := Nat.mod_eq_of_lt (by omega)
  rw [e1, e2, e3, e4, Nat.mul_comm b1, Nat.mul_comm b2, Nat.mul_comm b3]
  have s1 : 2 ^ 24 * b1 ||| 2 ^ 16 * b2 = 2 ^ 24 * b1 + 2 ^ 16 * b2 :=
    (Nat.mul_add_lt_is_or (by omega) b1).symm
  rw [s1, show 2 ^ 24 * b1 + 2 ^ 16 * b2 = 2 ^ 16 * (2 ^ 8 * b1 + b2) by ring]
  have s2 : 2 ^ 16 * (2 ^ 8 * b1 + b2) ||| 2 ^ 8 * b3
      = 2 ^ 16 * (2 ^ 8 * b1 + b2) + 2 ^ 8 * b3 :=
    (Nat.mul_add_lt_is_or (by omega) _).symm
  rw [s2, show 2 ^ 16 * (2 ^ 8 * b1 + b2) + 2 ^ 8 * b3
        = 2 ^ 8 * (2 ^ 8 * (2 ^ 8 * b1 + b2) + b3) by ring]
  have s3 : 2 ^ 8 * (2 ^ 8 * (2 ^ 8 * b1 + b2) + b3) ||| b4
      = 2 ^ 8 * (2 ^ 8 * (2 ^ 8 * b1 + b2) + b3) + b4 :=
    (Nat.mul_add_lt_is_or (by omega) _).symm
  rw [s3]

/-- Parent-side decoding inverts child-side encoding for every `i32` errno. -/
theorem decode_encode (e : Int) (h1 : -(2 ^ 31) ≤ e) (h2 : e < 2 ^ 31) :
    decode_errno (asU8 (e / 2 ^ 24)) (asU8 (e / 2 ^ 16)) (asU8 (e / 2 ^ 8)) (asU8 e) = e := by
  have hb1 : asU8 (e / 2 ^ 24) = ((e % 2 ^ 32) / 2 ^ 24).toNat := by unfold asU8; omega
  have hb2 : asU8 (e / 2 ^ 16) = ((e % 2 ^ 32) / 2 ^ 16 % 256).toNat := by unfold asU8; omega
  have hb3 : asU8 (e / 2 ^ 8) = ((e % 2 ^ 32) / 2 ^ 8 % 256).toNat := by unfold asU8; omega
  have hb4 : asU8 e = ((e % 2 ^ 32) % 256).toNat := by unfold asU8; omega
  unfold decode_errno
  rw [bytes_lor _ _ _ _ (asU8_lt _) (asU8_lt _) (asU8_lt _) (asU8_lt _)]
  rw [hb1, hb2, hb3, hb4]
  unfold toI32
  split <;> omega

/-- Decoding the discriminant of `k` recovers the variant `wrap k` builds. -/
theorem from_i32_valN (k : ErrorCode) (e : Int) :
    ErrorCode.from_i32 (k.valN : Int) e = k.wrap e := by
  cases k <;> rfl

/-- C1: for every error kind (discriminants 1..=13, and every code in that
range is some kind) and every `i32` errno, the child's failure path writes
exactly the 5 bytes `[code, errno as big-endian i32]` to the error pipe fd
and exits 127, and the parent's decoding of those same 5 bytes yields the
typed error of that kind whose `raw_os_error` is the original errno. -/
theorem error_frame_roundtrip (k : ErrorCode) (e epipe : Int)
    (h1 : -(2 ^ 31) ≤ e) (h2 : e < 2 ^ 31) :
    (fail_errno k e epipe).bytes.length = 5 ∧
    (fail_errno k e epipe).outFd = epipe ∧
    (fail_errno k e epipe).exitCode = 127 ∧
    1 ≤ k.valN ∧ k.valN ≤ 13 ∧
    (∀ n : Nat, 1 ≤ n → n ≤ 13 → ∃ c : ErrorCode, c.valN = n) ∧
    read_error_frame (fail_errno k e epipe).bytes = .error (k.wrap e) ∧
    (k.wrap e).raw_os_error = some e := by
  refine ⟨rfl, rfl, rfl, ?_, ?_, ?_, ?_, ?_⟩
  · cases k <;> simp [ErrorCode.valN]
  · cases k <;> simp [ErrorCode.valN]
  · intro n hn1 hn2
    interval_cases n
    exacts [⟨.CreatePipe, rfl⟩, ⟨.Fork, rfl⟩, ⟨.Exec, rfl⟩, ⟨.Chdir, rfl⟩,
      ⟨.ParentDeathSignal, rfl⟩, ⟨.PipeError, rfl⟩, ⟨.StdioError, rfl⟩,
      ⟨.SetUser, rfl⟩, ⟨.ChangeRoot, rfl⟩, ⟨.SetIdMap, rfl⟩, ⟨.SetPGid, rfl⟩,
      ⟨.SetNs, rfl⟩, ⟨.CapSet, rfl⟩]
  · have hframe : read_error_frame (fail_errno k e epipe).bytes =
        .error (ErrorCode.from_i32 (k.valN : Int)
          (decode_errno (asU8 (e / 2 ^ 24)) (asU8 (e / 2 ^ 16)) (asU8 (e / 2 ^ 8)) (asU8 e))) :=
      rfl
    rw [hframe, decode_encode e h1 h2, from_i32_valN]
  · cases k <;> rfl

/-- Concrete instance of `error_frame_roundtrip` at kind `ChangeRoot`,
errno `-2`, error-pipe fd 7. -/
theorem error_frame_roundtrip_witness :
    (-(2 ^ 31) : Int) ≤ -2 ∧ (-2 : Int) < 2 ^ 31 ∧
    read_error_frame (fail_errno ErrorCode.ChangeRoot (-2) 7).bytes =
      .error (Error.ChangeRoot (-2)) :=
  ⟨by norm_num, by norm_num,
   (error_frame_roundtrip ErrorCode.ChangeRoot (-2) 7 (by norm_num) (by norm_num)).2.2.2.2.2.2.1⟩

/-- Result of one `read(2)` on the wake-up pipe: either a byte count
(0 = writer closed) or a failure with an errno. -/
inductive ReadResult where
  | bytes (n : Nat)
  | err (errno : Int)
deriving DecidableEq, Repr

/-- Linux `EINTR`. -/
def EINTR : Int := 4

/-- Linux `EAGAIN`. -/
def EAGAIN : Int := 11

/-- Outcome of the child's wake-up loop, src/child.rs lines 39-71. -/
inductive WakeOutcome where
  /-- the loop `break`s: the child goes on with the spawn sequence -/
  | proceed
  /-- `kill(getpid(), sig)` followed by `_exit(127)` -/
  | selfSignalExit (sig : Nat) (exitCode : Nat)
  /-- `fail(...)`: a 5-byte frame written to fd `act.outFd`, then `_exit(127)` -/
  | failWrite (act : FailAct)
  /-- the read never returned: the child is still blocked on the pipe -/
  | stillBlocked
deriving DecidableEq, Repr

/-- src/child.rs `child_after_clone` lines 39-71: the wake-up handshake
loop.  `reads` lists what each successive `read(wakeup_pipe, .., 1)`
returned.  On `rc == 0` with `death_sig` set the child signals itself and
exits 127; with it unset it breaks out of the loop.  On `rc < 0` with
errno `EINTR`/`EAGAIN` it retries; with any other errno it calls
`fail(Err::PipeError, errno)` — note the source passes `errno`, not
`epipe`, as `fail`'s output-fd argument.  On `rc > 0` it breaks. -/
def child_wait_wakeup (death_sig : Option Nat) (epipe : Int) :
    List ReadResult → WakeOutcome
  | [] => .stillBlocked
  | r :: rest =>
    match r with
    | .bytes 0 =>
      match death_sig with
      | some sig => .selfSignalExit sig 127
      | none => .proceed
    | .bytes (_ + 1) => .proceed
    | .err errno =>
      if errno = EINTR ∨ errno = EAGAIN then
        child_wait_wakeup death_sig epipe rest
      else
        .failWrite (fail_errno ErrorCode.PipeError errno errno)

/-- C2 (failing input): the handshake behaves as claimed on EOF-with-signal,
EOF-without-signal, and EINTR/EAGAIN retries, but on any other read error
the `PipeError` frame is written to the file descriptor numbered `errno`
(here 5 = EIO) instead of the error pipe (here fd 42): src/child.rs line 65
passes `errno` where every other `fail` call passes `epipe`. -/
theorem wakeup_pipe_error_frame_misdirected :
    child_wait_wakeup (some 9) 42 [.err EINTR, .err EAGAIN, .bytes 1] = .proceed ∧
    child_wait_wakeup (some 9) 42 [.bytes 0] = .selfSignalExit 9 127 ∧
    child_wait_wakeup none 42 [.bytes 0] = .proceed ∧
    child_wait_wakeup (some 9) 42 [.err 5] =
      .failWrite { outFd := 5, bytes := fail_errno_bytes ErrorCode.PipeError 5, exitCode := 127 } ∧
    (child_wait_wakeup (some 9) 42 [.err 5]) ≠
      .failWrite (fail_errno ErrorCode.PipeError 5 42) := by
  refine ⟨rfl, rfl, rfl, rfl, ?_⟩
  decide

/-- Exit status of a process, src/status.rs `ExitStatus`.  `Exited` carries
the `i8` the library stores (an `Int` in `[-128, 128)`); `Signaled` carries
the signal number and the core-dump flag. -/
inductive ExitStatusM where
  | Exited (code : Int)
  | Signaled (sig : Nat) (core : Bool)
deriving DecidableEq, Repr

/-- src/error.rs `result(code, r)`: wrap a raw-errno failure. -/
def result_wrap (code : ErrorCode) (r : Except Int Unit) : Except Error Unit :=
  match r with
  | .ok _ => .ok ()
  | .error errno => .error (code.wrap errno)

/-- src/error.rs `cmd_result(def_code, r)`: a helper-command spawn failure
becomes `def_code.wrap errno`; exit 0 is success; non-zero exit becomes
`AuxCommandExited`; death by signal becomes `AuxCommandKilled`. -/
def cmd_result (defCode : ErrorCode) (r : Except Int ExitStatusM) : Except Error Unit :=
  match r with
  | .error errno => .error (defCode.wrap errno)
  | .ok (.Exited 0) => .ok ()
  | .ok (.Exited x) => .error (Error.AuxCommandExited x)
  | .ok (.Signaled s _) => .error (Error.AuxCommandKilled (s : Int))

/-- What each fallible step of src/run.rs `Command::after_start` returned,
in program order: `setpgid`, the two id-map helper commands, the two
direct id-map file writes, the wake-up-byte write, and the error-pipe
read (whose success carries the bytes read). -/
structure AfterStartEnv where
  make_group_leader : Bool
  setpgid_r : Except Int Unit
  has_id_maps : Bool
  has_helpers : Bool
  uid_cmd_r : Except Int ExitStatusM
  gid_cmd_r : Except Int ExitStatusM
  uid_write_r : Except Int Unit
  gid_write_r : Except Int Unit
  wakeup_write_r : Except Int Unit
  errpipe_read_r : Except Int (List Nat)

/-- src/run.rs `Command::after_start` lines 270-330: setpgid when
`make_group_leader`; then, when id maps are configured, either run the
`newuidmap`/`newgidmap` helpers or write `/proc/pid/uid_map` and
`/proc/pid/gid_map`; then write the wake-up byte; then read and decode
the error pipe.  Each `try!` short-circuits with the wrapped error. -/
def after_start (env : AfterStartEnv) : Except Error Unit :=
  match (if env.make_group_leader
         then result_wrap ErrorCode.SetPGid env.setpgid_r
         else .ok ()) with
  | .error e => .error e
  | .ok _ =>
    match (if env.has_id_maps then
             (if env.has_helpers then
                (match cmd_result ErrorCode.SetIdMap env.uid_cmd_r with
                 | .error e => .error e
                 | .ok _ => cmd_result ErrorCode.SetIdMap env.gid_cmd_r : Except Error Unit)
              else
                (match result_wrap ErrorCode.SetIdMap env.uid_write_r with
                 | .error e => .error e
                 | .ok _ => result_wrap ErrorCode.SetIdMap env.gid_write_r : Except Error Unit))
           else .ok ()) with
    | .error e => .error e
    | .ok _ =>
      match result_wrap ErrorCode.PipeError env.wakeup_write_r with
      | .error e => .error e
      | .ok _ =>
        match env.errpipe_read_r with
        | .error errno => .error (ErrorCode.wrap ErrorCode.PipeError errno)
        | .ok bytes => read_error_frame bytes

/-- What one `waitpid` call in the reaping loop of src/run.rs lines
238-243 returned: `EINTR` (the loop continues) or anything else
(`Ok(..)` or another error — the loop breaks). -/
inductive WaitRes where
  | eintr
  | other
deriving DecidableEq, Repr

/-- The reaping loop: number of `waitpid` calls issued until the first
non-`EINTR` result; `none` if the trace never leaves `EINTR` (the loop
would keep calling). -/
def reap_loop : List WaitRes → Option Nat
  | [] => none
  | .eintr :: rest => (reap_loop rest).map (· + 1)
  | .other :: _ => some 1

/-- A parent-side action after a failed `after_start`. -/
inductive PAction where
  | kill (pid : Int) (sig : Nat)
  | waitpid
deriving DecidableEq, Repr

/-- src/run.rs `spawn_inner` lines 236-245 (post-clone tail): if
`after_start` fails, `kill(pid, SIGKILL)`, loop `waitpid` retrying
`EINTR`, and return the error; otherwise return the `Child` handle
(modelled by its pid).  The result is `none` when the reaping loop never
terminates on the given trace. -/
def spawn_after_clone (pid : Int) (env : AfterStartEnv) (wtrace : List WaitRes) :
    Option (List PAction × Except Error Int) :=
  match after_start env with
  | .ok _ => some ([], .ok pid)
  | .error e =>
    (reap_loop wtrace).map
      (fun k => (PAction.kill pid 9 :: List.replicate k PAction.waitpid, .error e))

theorem reap_loop_spec (wtrace : List WaitRes) (h : WaitRes.other ∈ wtrace) :
    ∃ k, reap_loop wtrace = some k ∧ 1 ≤ k ∧ k ≤ wtrace.length ∧
      (∀ j, j + 1 < k → wtrace.get? j = some WaitRes.eintr) ∧
      wtrace.get? (k - 1) = some WaitRes.other := by
  induction wtrace with
  | nil => cases h
  | cons r rest ih =>
    cases r with
    | other =>
      refine ⟨1, rfl, le_refl 1, by simp, ?_, rfl⟩
      intro j hj; omega
    | eintr =>
      have hrest : WaitRes.other ∈ rest := by
        rcases List.mem_cons.mp h with h2 | h2
        · exact absurd h2 (by decide)
        · exact h2
      obtain ⟨k, hk, hk1, hklen, hpre, hlast⟩ := ih hrest
      refine ⟨k + 1, by simp [reap_loop, hk], by omega, by simp; omega, ?_, ?_⟩
      · intro j hj
        cases j with
        | zero => rfl
        | succ j2 =>
          have : j2 + 1 < k := by omega
          simpa using hpre j2 this
      · have hx : k + 1 - 1 = (k - 1) + 1 := by omega
        rw [hx]
        simpa using hlast

/-- C3: whenever any post-clone step of the parent (`setpgid`, id-map
helpers or file writes, wake-up write, error-pipe read) fails with error
`e`, the spawn tail sends SIGKILL to the child, calls `waitpid` retrying
`EINTR` until the first non-`EINTR` result, and returns `e`; no child
handle is produced. -/
theorem spawn_failure_atomic (pid : Int) (env : AfterStartEnv)
    (wtrace : List WaitRes) (e : Error)
    (h1 : after_start env = .error e) (h2 : WaitRes.other ∈ wtrace) :
    ∃ k, reap_loop wtrace = some k ∧ 1 ≤ k ∧ k ≤ wtrace.length ∧
      (∀ j, j + 1 < k → wtrace.get? j = some WaitRes.eintr) ∧
      wtrace.get? (k - 1) = some WaitRes.other ∧
      spawn_after_clone pid env wtrace =
        some (PAction.kill pid 9 :: List.replicate k PAction.waitpid, .error e) := by
  obtain ⟨k, hk, hk1, hklen, hpre, hlast⟩ := reap_loop_spec wtrace h2
  exact ⟨k, hk, hk1, hklen, hpre, hlast, by simp [spawn_after_clone, h1, hk]⟩

/-- Concrete instance of `spawn_failure_atomic`: `setpgid` fails with
`EPERM`, `waitpid` is interrupted once and then reaps. -/
theorem spawn_failure_atomic_witness :
    ∃ k, reap_loop [WaitRes.eintr, WaitRes.other] = some k ∧ 1 ≤ k ∧
      k ≤ ([WaitRes.eintr, WaitRes.other] : List WaitRes).length ∧
      (∀ j, j + 1 < k → ([WaitRes.eintr, WaitRes.other] : List WaitRes).get? j = some WaitRes.eintr) ∧
      ([WaitRes.eintr, WaitRes.other] : List WaitRes).get? (k - 1) = some WaitRes.other ∧
      spawn_after_clone 1000
        { make_group_leader := true, setpgid_r := .error 1,
          has_id_maps := false, has_helpers := false,
          uid_cmd_r := .ok (.Exited 0), gid_cmd_r := .ok (.Exited 0),
          uid_write_r := .ok (), gid_write_r := .ok (),
          wakeup_write_r := .ok (), errpipe_read_r := .ok [] }
        [WaitRes.eintr, WaitRes.other] =
        some (PAction.kill 1000 9 :: List.replicate k PAction.waitpid,
              .error (Error.SetPGid 1)) :=
  spawn_failure_atomic 1000 _ _ (Error.SetPGid 1) rfl (by decide)

/-- src/stdio.rs `Fd` as matched by `prepare_descriptors` (src/run.rs
lines 85-122): pipes, `/dev/null` opens, inherit, or a caller-supplied fd. -/
inductive FdKind where
  | readPipe
  | writePipe
  | readNull
  | writeNull
  | inherit
  | fd (raw : Int)
deriving DecidableEq, Repr

/-- One end of a pipe handed back to the caller (src/pipe.rs `PipeHolder`). -/
inductive PipeEnd where
  | reader (fd : Int)
  | writer (fd : Int)
deriving DecidableEq, Repr

/-- src/run.rs lines 85-122: materialize the initial source fd for one
intent.  `supply` lists the fds the kernel hands out, in order (a pipe
consumes two: read end first, as `pipe(2)` returns them); an exhausted
supply models a failing syscall, reported as `Err::CreatePipe` (errno
`EMFILE` = 24).  Returns the source fd, the remaining supply, the
`outer` entries and the close-guards this intent adds. -/
def materialize (dest : Int) (k : FdKind) (supply : List Int) :
    Except Error (Int × List Int × List (Int × PipeEnd) × List Int) :=
  match k with
  | .readPipe =>
    match supply with
    | rd :: wr :: rest => .ok (rd, rest, [(dest, .writer wr)], [rd])
    | _ => .error (Error.CreatePipe 24)
  | .writePipe =>
    match supply with
    | rd :: wr :: rest => .ok (wr, rest, [(dest, .reader rd)], [wr])
    | _ => .error (Error.CreatePipe 24)
  | .readNull =>
    match supply with
    | fd :: rest => .ok (fd, rest, [], [fd])
    | _ => .error (Error.CreatePipe 24)
  | .writeNull =>
    match supply with
    | fd :: rest => .ok (fd, rest, [], [fd])
    | _ => .error (Error.CreatePipe 24)
  | .inherit => .ok (dest, supply, [], [])
  | .fd raw => .ok (raw, supply, [], [])

/-- src/run.rs lines 125-129: `while fd != dest_fd && fds.contains_key(&fd)`
duplicate `fd` with `F_DUPFD_CLOEXEC(3)` (modelled by taking the next fd
from the supply) and push a close-guard; stop as soon as the source no
longer collides with a target of the user's map. -/
def dup_until_free (targets : List Int) (dest : Int) (fd : Int)
    (supply : List Int) (guards : List Int) :
    Except Error (Int × List Int × List Int) :=
  if fd = dest ∨ ¬ fd ∈ targets then .ok (fd, supply, guards)
  else
    match supply with
    | [] => .error (Error.CreatePipe 24)
    | nf :: rest => dup_until_free targets dest nf rest (guards ++ [nf])

/-- src/run.rs `prepare_descriptors` lines 84-131: iterate over the user's
fd-intent entries, materializing and de-colliding each source, recording
`(target, source)` into `inner`. -/
def prepare_loop (targets : List Int) :
    List (Int × FdKind) → List Int → List (Int × Int) → List (Int × PipeEnd) →
    List Int → Except Error (List (Int × Int) × List (Int × PipeEnd) × List Int)
  | [], _supply, inner, outer, guards => .ok (inner, outer, guards)
  | (dest, k) :: rest, supply, inner, outer, guards =>
    match materialize dest k supply with
    | .error e => .error e
    | .ok (fd0, supply1, oadd, gadd) =>
      match dup_until_free targets dest fd0 supply1 (guards ++ gadd) with
      | .error e => .error e
      | .ok (fd, supply2, guards2) =>
        prepare_loop targets rest supply2 (inner ++ [(dest, fd)]) (outer ++ oadd) guards2

/-- src/run.rs `prepare_descriptors`: the collision set is the key set of
the user's (unchanged) fd map. -/
def prepare_descriptors (fds : List (Int × FdKind)) (supply : List Int) :
    Except Error (List (Int × Int) × List (Int × PipeEnd) × List Int) :=
  prepare_loop (fds.map Prod.fst) fds supply [] [] []

theorem dup_until_free_post (targets : List Int) (dest : Int) :
    ∀ (supply : List Int) (fd : Int) (guards : List Int) (s : Int)
      (su gu : List Int),
      dup_until_free targets dest fd supply guards = .ok (s, su, gu) →
      s = dest ∨ ¬ s ∈ targets := by
  intro supply
  induction supply with
  | nil =>
    intro fd guards s su gu h
    unfold dup_until_free at h
    split at h
    · rename_i hc
      cases h
      exact hc
    · cases h
  | cons nf rest ih =>
    intro fd guards s su gu h
    unfold dup_until_free at h
    split at h
    · rename_i hc
      cases h
      exact hc
    · exact ih nf (guards ++ [nf]) s su gu h

theorem prepare_loop_inv (targets : List Int) :
    ∀ (entries : List (Int × FdKind)) (supply : List Int)
      (inner0 : List (Int × Int)) (outer0 : List (Int × PipeEnd))
      (guards0 : List Int) (inner : List (Int × Int))
      (outer : List (Int × PipeEnd)) (guards : List Int),
      prepare_loop targets entries supply inner0 outer0 guards0
        = .ok (inner, outer, guards) →
      inner.map Prod.fst = inner0.map Prod.fst ++ entries.map Prod.fst ∧
      ∀ p ∈ inner, p ∈ inner0 ∨ p.2 = p.1 ∨ ¬ p.2 ∈ targets := by
  intro entries
  induction entries with
  | nil =>
    intro supply inner0 outer0 guards0 inner outer guards h
    cases h
    exact ⟨by simp, fun p hp => Or.inl hp⟩
  | cons entry rest ih =>
    intro supply inner0 outer0 guards0 inner outer guards h
    obtain ⟨dest, k⟩ := entry
    unfold prepare_loop at h
    cases hm : materialize dest k supply with
    | error e => rw [hm] at h; cases h
    | ok m =>
      obtain ⟨fd0, supply1, oadd, gadd⟩ := m
      rw [hm] at h
      dsimp only at h
      cases hd : dup_until_free targets dest fd0 supply1 (guards0 ++ gadd) with
      | error e => rw [hd] at h; cases h
      | ok d =>
        obtain ⟨fd, supply2, guards2⟩ := d
        rw [hd] at h
        dsimp only at h
        obtain ⟨hkeys, hmem⟩ :=
          ih supply2 (inner0 ++ [(dest, fd)]) (outer0 ++ oadd) guards2
            inner outer guards h
        constructor
        · rw [hkeys]; simp
        · intro p hp
          rcases hmem p hp with hin | hrest
          · rcases List.mem_append.mp hin with h0 | h1
            · exact Or.inl h0
            · have hpd : p = (dest, fd) := by simpa using h1
              subst hpd
              rcases dup_until_free_post targets dest supply1 fd0
                  (guards0 ++ gadd) fd supply2 guards2 hd with heq | hnot
              · exact Or.inr (Or.inl heq)
              · exact Or.inr (Or.inr hnot)
          · exact Or.inr hrest

/-- C4: whenever `prepare_descriptors` succeeds, the inner (target →
source) plan covers exactly the user's target fds, and every entry whose
source differs from its target has a source that is not itself a target
of the plan (colliding sources having been re-duplicated until free). -/
theorem prepare_descriptors_no_clobber (fds : List (Int × FdKind))
    (supply : List Int) (inner : List (Int × Int))
    (outer : List (Int × PipeEnd)) (guards : List Int)
    (h : prepare_descriptors fds supply = .ok (inner, outer, guards)) :
    inner.map Prod.fst = fds.map Prod.fst ∧
    ∀ p ∈ inner, p.2 ≠ p.1 → ¬ p.2 ∈ inner.map Prod.fst := by
  obtain ⟨hkeys, hmem⟩ := prepare_loop_inv (fds.map Prod.fst) fds supply [] [] []
    inner outer guards h
  have hkeys2 : inner.map Prod.fst = fds.map Prod.fst := by simpa using hkeys
  refine ⟨hkeys2, fun p hp hne => ?_⟩
  rcases hmem p hp with h0 | heq | hnot
  · cases h0
  · exact absurd heq hne
  · rw [hkeys2]; exact hnot

/-- Concrete instance of `prepare_descriptors_no_clobber`: the crossing
map 3→(raw fd 1), 1→(raw fd 3); both sources collide and get
re-duplicated to the fresh fds 5 and 6. -/
theorem prepare_descriptors_no_clobber_witness :
    prepare_descriptors [(3, FdKind.fd 1), (1, FdKind.fd 3)] [5, 6]
      = .ok ([(3, 5), (1, 6)], [], [5, 6]) ∧
    ([(3, 5), (1, 6)] : List (Int × Int)).map Prod.fst
      = ([(3, FdKind.fd 1), (1, FdKind.fd 3)]).map Prod.fst ∧
    ∀ p ∈ ([(3, 5), (1, 6)] : List (Int × Int)), p.2 ≠ p.1 →
      ¬ p.2 ∈ ([(3, 5), (1, 6)] : List (Int × Int)).map Prod.fst := by
  have h : prepare_descriptors [(3, FdKind.fd 1), (1, FdKind.fd 3)] [5, 6]
      = .ok ([(3, 5), (1, 6)], [], [5, 6]) := by rfl
  have h2 := prepare_descriptors_no_clobber [(3, FdKind.fd 1), (1, FdKind.fd 3)]
    [5, 6] [(3, 5), (1, 6)] [] [5, 6] h
  exact ⟨h, h2.1, h2.2⟩

/-- The three `/proc/self` files the child's id-map phase touches:
`/proc/self/uid_map`, `/proc/self/setgroups`, `/proc/self/gid_map`. -/
inductive ProcPath where
  | uidMap
  | setgroups
  | gidMap
deriving DecidableEq, Repr

/-- A file operation attempted by the child (openat, write, close.) -/
inductive FileOp where
  | openW (path : ProcPath)
  | writeF (path : ProcPath) (data : String)
  | closeF (path : ProcPath)
deriving DecidableEq, Repr

/-- What the three syscalls for one id-map file returned. -/
structure IdMapEnv where
  uid_open : Except Int Unit
  uid_write : Except Int Unit
  uid_close : Except Int Unit
  sg_open : Except Int Unit
  sg_write : Except Int Unit
  sg_close : Except Int Unit
  gid_open : Except Int Unit
  gid_write : Except Int Unit
  gid_close : Except Int Unit

/-- One `openat`/`write`/`close` block of src/child.rs lines 73-111: any
failing call makes the child `fail(Err::SetIdMap, epipe)` with the
syscall's errno; the trace records the calls attempted. -/
def file_seq (p : ProcPath) (data : String) (epipe : Int)
    (ro rw rc : Except Int Unit) : List FileOp × Option FailAct :=
  match ro with
  | .error e => ([.openW p], some (fail_errno ErrorCode.SetIdMap e epipe))
  | .ok _ =>
    match rw with
    | .error e => ([.openW p, .writeF p data],
                   some (fail_errno ErrorCode.SetIdMap e epipe))
    | .ok _ =>
      match rc with
      | .error e => ([.openW p, .writeF p data, .closeF p],
                     some (fail_errno ErrorCode.SetIdMap e epipe))
      | .ok _ => ([.openW p, .writeF p data, .closeF p], none)

/-- src/child.rs lines 86-111: the gid block runs only when the prepared
`gid_maps` blob is non-empty, and writes the string `deny` to
`/proc/self/setgroups` (open/write/close) before opening and writing
`/proc/self/gid_map`. -/
def child_gid_phase (gidMaps : String) (epipe : Int) (env : IdMapEnv)
    (t1 : List FileOp) : List FileOp × Option FailAct :=
  if gidMaps = "" then (t1, none)
  else
    match file_seq .setgroups "deny" epipe env.sg_open env.sg_write env.sg_close with
    | (t2, some f) => (t1 ++ t2, some f)
    | (t2, none) =>
      match file_seq .gidMap gidMaps epipe env.gid_open env.gid_write env.gid_close with
      | (t3, o) => (t1 ++ t2 ++ t3, o)

/-- src/child.rs lines 73-111: the whole id-map phase of the child;
the uid block runs first when `uid_maps` is non-empty. -/
def child_write_id_maps (uidMaps gidMaps : String) (epipe : Int)
    (env : IdMapEnv) : List FileOp × Option FailAct :=
  if uidMaps = "" then child_gid_phase gidMaps epipe env []
  else
    match file_seq .uidMap uidMaps epipe env.uid_open env.uid_write env.uid_close with
    | (t1, some f) => (t1, some f)
    | (t1, none) => child_gid_phase gidMaps epipe env t1

/-- Scan of a trace: `true` iff every write to `/proc/self/gid_map` is
preceded by a write of `deny` to `/proc/self/setgroups`. -/
def deny_before_gid : List FileOp → Bool → Bool
  | [], _ => true
  | .writeF p d :: rest, seen =>
    if p = ProcPath.gidMap then seen && deny_before_gid rest seen
    else if p = ProcPath.setgroups ∧ d = "deny" then deny_before_gid rest true
    else deny_before_gid rest seen
  | .openW _ :: rest, seen => deny_before_gid rest seen
  | .closeF _ :: rest, seen => deny_before_gid rest seen

theorem deny_before_gid_true : ∀ t : List FileOp, deny_before_gid t true = true := by
  intro t
  induction t with
  | nil => rfl
  | cons op rest ih =>
    cases op with
    | writeF p d =>
      unfold deny_before_gid
      split
      · simpa using ih
      · split <;> exact ih
    | openW p => simpa [deny_before_gid] using ih
    | closeF p => simpa [deny_before_gid] using ih

theorem deny_before_gid_no_gid (t : List FileOp)
    (h : ∀ d, ¬ FileOp.writeF ProcPath.gidMap d ∈ t) :
    ∀ s, deny_before_gid t s = true := by
  induction t with
  | nil => intro s; rfl
  | cons op rest ih =>
    intro s
    have hrest : ∀ d, ¬ FileOp.writeF ProcPath.gidMap d ∈ rest := by
      intro d hd
      exact h d (List.mem_cons_of_mem _ hd)
    cases op with
    | writeF p d =>
      unfold deny_before_gid
      split
      · rename_i hp
        exact absurd (by rw [hp]; exact List.mem_cons_self _ _) (h d)
      · split
        · exact deny_before_gid_true rest
        · exact ih hrest s
    | openW p => simpa [deny_before_gid] using ih hrest s
    | closeF p => simpa [deny_before_gid] using ih hrest s

theorem deny_before_gid_append (t1 t2 : List FileOp)
    (h1 : ∀ d, ¬ FileOp.writeF ProcPath.gidMap d ∈ t1)
    (h2 : deny_before_gid t2 false = true) :
    deny_before_gid (t1 ++ t2) false = true := by
  induction t1 with
  | nil => simpa using h2
  | cons op rest ih =>
    have hrest : ∀ d, ¬ FileOp.writeF ProcPath.gidMap d ∈ rest := by
      intro d hd
      exact h1 d (List.mem_cons_of_mem _ hd)
    cases op with
    | writeF p d =>
      rw [List.cons_append]
      unfold deny_before_gid
      split
      · rename_i hp
        exact absurd (by rw [hp]; exact List.mem_cons_self _ _) (h1 d)
      · split
        · exact deny_before_gid_true (rest ++ t2)
        · exact ih hrest
    | openW p =>
      rw [List.cons_append]
      simpa [deny_before_gid] using ih hrest
    | closeF p =>
      rw [List.cons_append]
      simpa [deny_before_gid] using ih hrest

theorem file_seq_frame (p : ProcPath) (data : String) (epipe : Int)
    (ro rw rc : Except Int Unit) (f : FailAct)
    (h : (file_seq p data epipe ro rw rc).2 = some f) :
    ∃ e, f = fail_errno ErrorCode.SetIdMap e epipe := by
  unfold file_seq at h
  rcases ro with e | u
  · exact ⟨e, by cases h; rfl⟩
  · rcases rw with e | u2
    · exact ⟨e, by cases h; rfl⟩
    · rcases rc with e | u3
      · exact ⟨e, by cases h; rfl⟩
      · cases h

theorem file_seq_ops (p : ProcPath) (data : String) (epipe : Int)
    (ro rw rc : Except Int Unit) (op : FileOp)
    (h : op ∈ (file_seq p data epipe ro rw rc).1) :
    op = .openW p ∨ op = .writeF p data ∨ op = .closeF p := by
  unfold file_seq at h
  rcases ro with e | u
  · exact Or.inl (by simpa using h)
  · rcases rw with e | u2
    · rcases (by simpa using h : op = FileOp.openW p ∨ op = FileOp.writeF p data) with h1 | h1
      · exact Or.inl h1
      · exact Or.inr (Or.inl h1)
    · rcases rc with e | u3 <;> simpa using h

theorem file_seq_none_iff (p : ProcPath) (data : String) (epipe : Int)
    (ro rw rc : Except Int Unit) :
    (file_seq p data epipe ro rw rc).2 = none ↔
      ro = .ok () ∧ rw = .ok () ∧ rc = .ok () := by
  unfold file_seq
  rcases ro with e | u <;> rcases rw with e2 | u2 <;> rcases rc with e3 | u3 <;> simp

theorem file_seq_full (p : ProcPath) (data : String) (epipe : Int) :
    file_seq p data epipe (.ok ()) (.ok ()) (.ok ())
      = ([.openW p, .writeF p data, .closeF p], none) := rfl

theorem child_gid_phase_frame (gidMaps : String) (epipe : Int) (env : IdMapEnv)
    (t1 : List FileOp) (f : FailAct)
    (h : (child_gid_phase gidMaps epipe env t1).2 = some f) :
    ∃ e, f = fail_errno ErrorCode.SetIdMap e epipe := by
  unfold child_gid_phase at h
  split at h
  · simp at h
  · revert h
    cases hsg : file_seq .setgroups "deny" epipe env.sg_open env.sg_write env.sg_close with
    | mk t2 o2 =>
      cases o2 with
      | some f2 =>
        intro h
        dsimp at h
        obtain rfl : f2 = f := Option.some.inj h
        exact file_seq_frame _ _ _ _ _ _ f2 (by rw [hsg])
      | none =>
        cases hgd : file_seq .gidMap gidMaps epipe env.gid_open env.gid_write env.gid_close with
        | mk t3 o3 =>
          intro h
          dsimp at h
          exact file_seq_frame _ _ _ _ _ _ f (by rw [hgd]; exact h)

theorem child_gid_phase_dbg (gidMaps : String) (epipe : Int) (env : IdMapEnv)
    (t1 : List FileOp) (h1 : ∀ d, ¬ FileOp.writeF ProcPath.gidMap d ∈ t1) :
    deny_before_gid (child_gid_phase gidMaps epipe env t1).1 false = true := by
  unfold child_gid_phase
  split
  · exact deny_before_gid_no_gid t1 h1 false
  · cases hsg : file_seq .setgroups "deny" epipe env.sg_open env.sg_write env.sg_close with
    | mk t2 o2 =>
      have ht2 : ∀ d, ¬ FileOp.writeF ProcPath.gidMap d ∈ t2 := by
        intro d hd
        have := file_seq_ops .setgroups "deny" epipe env.sg_open env.sg_write env.sg_close
          (FileOp.writeF ProcPath.gidMap d) (by rw [hsg]; exact hd)
        rcases this with h | h | h <;> simp at h
      cases o2 with
      | some f2 =>
        dsimp
        exact deny_before_gid_no_gid (t1 ++ t2)
          (by intro d hd
              rcases List.mem_append.mp hd with hm | hm
              · exact h1 d hm
              · exact ht2 d hm) false
      | none =>
        have hok := (file_seq_none_iff .setgroups "deny" epipe
          env.sg_open env.sg_write env.sg_close).mp (by rw [hsg])
        have ht2full : t2 = [.openW .setgroups, .writeF .setgroups "deny", .closeF .setgroups] := by
          have := file_seq_full ProcPath.setgroups "deny" epipe
          rw [hok.1, hok.2.1, hok.2.2] at hsg
          rw [this] at hsg
          exact ((Prod.mk.injEq _ _ _ _).mp hsg.symm).1
        cases hgd : file_seq .gidMap gidMaps epipe env.gid_open env.gid_write env.gid_close with
        | mk t3 o3 =>
          dsimp
          rw [List.append_assoc]
          refine deny_before_gid_append t1 (t2 ++ t3) h1 ?_
          rw [ht2full]
          have hstep : deny_before_gid
              (([.openW .setgroups, .writeF .setgroups "deny", .closeF .setgroups] : List FileOp)
                ++ t3) false = deny_before_gid t3 true := by
            simp [deny_before_gid]
          rw [hstep]
          exact deny_before_gid_true t3

theorem child_gid_phase_none_iff (gidMaps : String) (epipe : Int) (env : IdMapEnv)
    (t1 : List FileOp) :
    (child_gid_phase gidMaps epipe env t1).2 = none ↔
      (gidMaps ≠ "" → env.sg_open = .ok () ∧ env.sg_write = .ok () ∧ env.sg_close = .ok () ∧
        env.gid_open = .ok () ∧ env.gid_write = .ok () ∧ env.gid_close = .ok ()) := by
  unfold child_gid_phase
  split
  · rename_i hg
    simp [hg]
  · rename_i hg
    cases hsg : file_seq .setgroups "deny" epipe env.sg_open env.sg_write env.sg_close with
    | mk t2 o2 =>
      cases o2 with
      | some f2 =>
        have hno : ¬ (env.sg_open = .ok () ∧ env.sg_write = .ok () ∧ env.sg_close = .ok ()) := by
          intro hall
          have := (file_seq_none_iff .setgroups "deny" epipe
            env.sg_open env.sg_write env.sg_close).mpr hall
          rw [hsg] at this
          simp at this
        constructor
        · intro h
          dsimp at h
          cases h
        · intro hall
          obtain ⟨a, b, c, _, _, _⟩ := hall hg
          exact absurd ⟨a, b, c⟩ hno
      | none =>
        have hsgok := (file_seq_none_iff .setgroups "deny" epipe
          env.sg_open env.sg_write env.sg_close).mp (by rw [hsg])
        cases hgd : file_seq .gidMap gidMaps epipe env.gid_open env.gid_write env.gid_close with
        | mk t3 o3 =>
          have hgiff : o3 = none ↔
              (env.gid_open = .ok () ∧ env.gid_write = .ok () ∧ env.gid_close = .ok ()) := by
            rw [show o3 = (file_seq .gidMap gidMaps epipe
              env.gid_open env.gid_write env.gid_close).2 by rw [hgd]]
            exact file_seq_none_iff _ _ _ _ _ _
          constructor
          · intro h
            dsimp at h
            intro _
            obtain ⟨g1, g2, g3⟩ := hgiff.mp h
            exact ⟨hsgok.1, hsgok.2.1, hsgok.2.2, g1, g2, g3⟩
          · intro hall
            obtain ⟨_, _, _, g1, g2, g3⟩ := hall hg
            dsimp
            exact hgiff.mpr ⟨g1, g2, g3⟩

theorem child_write_id_maps_frame (uidMaps gidMaps : String) (epipe : Int)
    (env : IdMapEnv) (f : FailAct)
    (h : (child_write_id_maps uidMaps gidMaps epipe env).2 = some f) :
    ∃ e, f = fail_errno ErrorCode.SetIdMap e epipe := by
  unfold child_write_id_maps at h
  revert h
  split
  · intro h
    exact child_gid_phase_frame _ _ _ _ _ h
  · cases huid : file_seq .uidMap uidMaps epipe env.uid_open env.uid_write env.uid_close with
    | mk t1 o1 =>
      cases o1 with
      | some f1 =>
        intro h
        dsimp at h
        obtain rfl : f1 = f := Option.some.inj h
        exact file_seq_frame _ _ _ _ _ _ f1 (by rw [huid])
      | none =>
        intro h
        dsimp at h
        exact child_gid_phase_frame _ _ _ _ _ h

theorem child_write_id_maps_dbg (uidMaps gidMaps : String) (epipe : Int)
    (env : IdMapEnv) :
    deny_before_gid (child_write_id_maps uidMaps gidMaps epipe env).1 false = true := by
  unfold child_write_id_maps
  split
  · exact child_gid_phase_dbg _ _ _ [] (by intro d hd; cases hd)
  · cases huid : file_seq .uidMap uidMaps epipe env.uid_open env.uid_write env.uid_close with
    | mk t1 o1 =>
      have ht1 : ∀ d, ¬ FileOp.writeF ProcPath.gidMap d ∈ t1 := by
        intro d hd
        have := file_seq_ops .uidMap uidMaps epipe env.uid_open env.uid_write env.uid_close
          (FileOp.writeF ProcPath.gidMap d) (by rw [huid]; exact hd)
        rcases this with h | h | h <;> simp at h
      cases o1 with
      | some f1 =>
        dsimp
        exact deny_before_gid_no_gid t1 ht1 false
      | none =>
        dsimp
        exact child_gid_phase_dbg _ _ _ t1 ht1

theorem child_write_id_maps_none_iff (uidMaps gidMaps : String) (epipe : Int)
    (env : IdMapEnv) :
    (child_write_id_maps uidMaps gidMaps epipe env).2 = none ↔
      ((uidMaps ≠ "" → env.uid_open = .ok () ∧ env.uid_write = .ok () ∧ env.uid_close = .ok ()) ∧
       (gidMaps ≠ "" → env.sg_open = .ok () ∧ env.sg_write = .ok () ∧ env.sg_close = .ok () ∧
         env.gid_open = .ok () ∧ env.gid_write = .ok () ∧ env.gid_close = .ok ())) := by
  unfold child_write_id_maps
  split
  · rename_i hu
    rw [child_gid_phase_none_iff]
    simp [hu]
  · rename_i hu
    cases huid : file_seq .uidMap uidMaps epipe env.uid_open env.uid_write env.uid_close with
    | mk t1 o1 =>
      cases o1 with
      | some f1 =>
        have hno : ¬ (env.uid_open = .ok () ∧ env.uid_write = .ok () ∧ env.uid_close = .ok ()) := by
          intro hall
          have := (file_seq_none_iff .uidMap uidMaps epipe
            env.uid_open env.uid_write env.uid_close).mpr hall
          rw [huid] at this
          simp at this
        constructor
        · intro h
          dsimp at h
          cases h
        · intro hall
          exact absurd (hall.1 hu) hno
      | none =>
        have huidok := (file_seq_none_iff .uidMap uidMaps epipe
          env.uid_open env.uid_write env.uid_close).mp (by rw [huid])
        dsimp
        rw [child_gid_phase_none_iff]
        constructor
        · intro hg
          exact ⟨fun _ => huidok, hg⟩
        · intro hall
          exact hall.2

/-- C5: in the child's id-map phase (user namespace configured, no helper
commands), `/proc/self/gid_map` is never written before the string `deny`
has been written to `/proc/self/setgroups`, any failure in opening,
writing or closing these files produces a `SetIdMap` error frame (written
to the error pipe, exiting 127), and the phase succeeds exactly when all
the syscalls of the active blocks succeed. -/
theorem idmap_write_order (uidMaps gidMaps : String) (epipe : Int) (env : IdMapEnv) :
    (∀ f, (child_write_id_maps uidMaps gidMaps epipe env).2 = some f →
        ∃ e, f = fail_errno ErrorCode.SetIdMap e epipe) ∧
    deny_before_gid (child_write_id_maps uidMaps gidMaps epipe env).1 false = true ∧
    ((child_write_id_maps uidMaps gidMaps epipe env).2 = none ↔
      ((uidMaps ≠ "" → env.uid_open = .ok () ∧ env.uid_write = .ok () ∧ env.uid_close = .ok ()) ∧
       (gidMaps ≠ "" → env.sg_open = .ok () ∧ env.sg_write = .ok () ∧ env.sg_close = .ok () ∧
         env.gid_open = .ok () ∧ env.gid_write = .ok () ∧ env.gid_close = .ok ()))) :=
  ⟨fun f => child_write_id_maps_frame uidMaps gidMaps epipe env f,
   child_write_id_maps_dbg uidMaps gidMaps epipe env,
   child_write_id_maps_none_iff uidMaps gidMaps epipe env⟩

/-- Concrete instance of `idmap_write_order`: with both map blobs
non-empty, the successful trace keeps `deny` before the gid-map write,
and a failing `close` of `/proc/self/gid_map` (errno 13) yields a
`SetIdMap` frame on the error pipe (fd 8). -/
theorem idmap_write_order_witness :
    deny_before_gid (child_write_id_maps "0 1000 1\n" "0 1000 1\n" 8
      ⟨.ok (), .ok (), .ok (), .ok (), .ok (), .ok (), .ok (), .ok (), .ok ()⟩).1
      false = true ∧
    (∃ e, fail_errno ErrorCode.SetIdMap 13 8 = fail_errno ErrorCode.SetIdMap e 8) :=
  ⟨(idmap_write_order "0 1000 1\n" "0 1000 1\n" 8
      ⟨.ok (), .ok (), .ok (), .ok (), .ok (), .ok (), .ok (), .ok (), .ok ()⟩).2.1,
   (idmap_write_order "0 1000 1\n" "0 1000 1\n" 8
      ⟨.ok (), .ok (), .ok (), .ok (), .ok (), .ok (), .ok (), .ok (), .error 13⟩).1
     (fail_errno ErrorCode.SetIdMap 13 8) rfl⟩

/-- Modelled from the spec: `MAX_PID_LEN` is imported by src/child.rs from
src/run.rs, but the snapshot's run.rs does not define it; the spec (§9,
Environment pid patching) fixes the slot at 12 decimal digits plus NUL. -/
def MAX_PID_LEN : Nat := 12

/-- The digit loop of src/child.rs `format_pid_fixed` lines 300-306:
`for n in (0..buf.len()-1).rev()` writes `tmp % 10 + b'0'` at `n`,
divides `tmp` by 10, and returns the suffix `&buf[n..]` (the digits
written so far followed by the trailing NUL) once `tmp == 0`.  `fuel` is
the number of loop indices left; exhausting it is the source's
`unreachable!()` panic, modelled as `none`.  `acc` is the digits already
written to the right of position `n`. -/
def format_go (tmp : Nat) (acc : List Nat) : Nat → Option (List Nat)
  | 0 => none
  | fuel + 1 =>
    if tmp / 10 = 0 then some (((tmp % 10 + 48) :: acc) ++ [0])
    else format_go (tmp / 10) ((tmp % 10 + 48) :: acc) fuel

/-- src/child.rs `format_pid_fixed` lines 292-309 on a buffer of length
`len`: writes a NUL in the last slot, special-cases `pid == 0` to the
slice `"0\0"`, and otherwise runs the digit loop.  Buffers too short to
index (`len < 2` for the `buf[buf.len()-2]` write) panic, modelled as
`none`.  The returned slice is the suffix of the buffer starting at the
last position written, i.e. the digits are right-aligned. -/
def format_pid_fixed (len : Nat) (pid : Nat) : Option (List Nat) :=
  if len < 2 then none
  else if pid = 0 then some [48, 0]
  else format_go pid [] (len - 1)

/-- The standard decimal rendering of a natural number, as ASCII bytes
(`Nat.digits` is little-endian, so the byte string is its reverse). -/
def decimal_render (n : Nat) : List Nat :=
  if n = 0 then [48] else (Nat.digits 10 n).reverse.map (· + 48)

theorem format_go_digits :
    ∀ (fuel tmp : Nat) (acc : List Nat), 0 < tmp →
      (Nat.digits 10 tmp).length ≤ fuel →
      format_go tmp acc fuel
        = some (((Nat.digits 10 tmp).reverse.map (· + 48)) ++ acc ++ [0]) := by
  intro fuel
  induction fuel with
  | zero =>
    intro tmp acc htmp hlen
    have : Nat.digits 10 tmp = [] := List.length_eq_zero.mp (Nat.le_zero.mp hlen)
    have : tmp = 0 := Nat.digits_eq_nil_iff_eq_zero.mp this
    omega
  | succ fuel ih =>
    intro tmp acc htmp hlen
    have hdig : Nat.digits 10 tmp = tmp % 10 :: Nat.digits 10 (tmp / 10) :=
      Nat.digits_def' (by norm_num) htmp
    unfold format_go
    by_cases h10 : tmp / 10 = 0
    · rw [if_pos h10]
      rw [hdig, h10]
      simp
    · rw [if_neg h10]
      have hlen2 : (Nat.digits 10 (tmp / 10)).length ≤ fuel := by
        rw [hdig] at hlen
        simpa using hlen
      rw [ih (tmp / 10) ((tmp % 10 + 48) :: acc) (Nat.pos_of_ne_zero h10) hlen2]
      rw [hdig]
      simp

/-- C6: for every buffer length at least 2 and every non-negative pid
whose decimal form fits (pid < 10^(len-1)), `format_pid_fixed` returns
exactly the standard decimal digit string of the pid followed by one NUL
(`pid = 0` yielding `"0\0"`), and the returned slice fits in the buffer
(it is the right-aligned suffix). -/
theorem format_pid_fixed_correct (len pid : Nat)
    (hlen : 2 ≤ len) (hfit : pid < 10 ^ (len - 1)) :
    format_pid_fixed len pid = some (decimal_render pid ++ [0]) ∧
    (decimal_render pid ++ [0]).length ≤ len ∧
    format_pid_fixed len 0 = some [48, 0] := by
  have hzero : format_pid_fixed len 0 = some [48, 0] := by
    unfold format_pid_fixed
    rw [if_neg (by omega), if_pos rfl]
  by_cases hpid : pid = 0
  · subst hpid
    refine ⟨hzero, ?_, hzero⟩
    simp [decimal_render]
    omega
  · have hpos : 0 < pid := Nat.pos_of_ne_zero hpid
    have hlog : Nat.log 10 pid < len - 1 := Nat.log_lt_of_lt_pow hpid hfit
    have hdl : (Nat.digits 10 pid).length = Nat.log 10 pid + 1 :=
      Nat.digits_len 10 pid (by norm_num) hpid
    have hfitlen : (Nat.digits 10 pid).length ≤ len - 1 := by omega
    refine ⟨?_, ?_, hzero⟩
    · unfold format_pid_fixed
      rw [if_neg (by omega), if_neg hpid]
      rw [format_go_digits (len - 1) pid [] hpos hfitlen]
      simp [decimal_render, hpid]
    · simp [decimal_render, hpid]
      omega

/-- Concrete instance of `format_pid_fixed_correct` on the source's
buffer size `MAX_PID_LEN + 1` and pid 77839 (a value from the crate's
own unit tests). -/
theorem format_pid_fixed_correct_witness :
    2 ≤ MAX_PID_LEN + 1 ∧ 77839 < 10 ^ (MAX_PID_LEN + 1 - 1) ∧
    format_pid_fixed (MAX_PID_LEN + 1) 77839 = some (decimal_render 77839 ++ [0]) :=
  ⟨by norm_num [MAX_PID_LEN], by norm_num [MAX_PID_LEN],
   (format_pid_fixed_correct (MAX_PID_LEN + 1) 77839 (by norm_num [MAX_PID_LEN])
     (by norm_num [MAX_PID_LEN])).1⟩

/-- The `Command` fields the descriptor claims touch (src/lib.rs lines
83-84): the fd-intent map (as an association list) and the close ranges.
The remaining builder fields are irrelevant to these claims and omitted. -/
structure CommandModel where
  fds : List (Int × FdKind)
  close_fds : List (Int × Int)
deriving DecidableEq, Repr

/-- Modelled from the spec: the snapshot's src/std_api.rs `Command::new`
(lines 30-40) predates the `fds`/`close_fds` fields of src/lib.rs (it
still initialises legacy `stdin`/`stdout`/`stderr` options), so the
initial fd table is taken from the spec (§3: "Always initialised with
0→Inherit, 1→Inherit, 2→Inherit") and matches `reset_fds`. -/
def Command.new : CommandModel :=
  { fds := [(0, .inherit), (1, .inherit), (2, .inherit)], close_fds := [] }

/-- src/fds.rs `Command::reset_fds` lines 115-123. -/
def Command.reset_fds (c : CommandModel) : CommandModel :=
  { c with fds := [(0, .inherit), (1, .inherit), (2, .inherit)], close_fds := [] }

/-- C7: immediately after `Command::new`, and again after `reset_fds`,
the fd map holds exactly 0→Inherit, 1→Inherit, 2→Inherit and the
close_fds list is empty. -/
theorem default_fd_table (c : CommandModel) :
    Command.new.fds = [(0, .inherit), (1, .inherit), (2, .inherit)] ∧
    Command.new.close_fds = [] ∧
    (Command.reset_fds c).fds = [(0, .inherit), (1, .inherit), (2, .inherit)] ∧
    (Command.reset_fds c).close_fds = [] :=
  ⟨rfl, rfl, rfl, rfl⟩

/-- src/fds.rs `AnyRange`. -/
inductive AnyRange where
  | rangeFrom (x : Int)
  | range (x y : Int)
deriving DecidableEq, Repr

/-- src/fds.rs lines 126-130: `impl Into<AnyRange> for Range`. -/
def anyRange_of_range (s e : Int) : AnyRange := .range s e

/-- src/fds.rs lines 132-136: `..N` becomes `Range(3, N)`. -/
def anyRange_of_rangeTo (e : Int) : AnyRange := .range 3 e

/-- src/fds.rs lines 138-142: `N..` becomes `RangeFrom(N)`. -/
def anyRange_of_rangeFrom (s : Int) : AnyRange := .rangeFrom s

/-- src/fds.rs lines 144-148: `..` becomes `RangeFrom(3)`. -/
def anyRange_of_rangeFull : AnyRange := .rangeFrom 3

/-- src/fds.rs `Command::close_fds` lines 91-110.  `rlim` is what
`getrlimit(RLIMIT_NOFILE)` returns at the moment of the call: an errno
(the source panics) or the current soft limit `rlim_cur : u64`, which the
source truncates with `as RawFd` (`i32`), modelled by `toI32`.  A lower
bound below 3 fails the `assert!(x >= 3)`, modelled as `.error`.  One
pair is appended per successful call. -/
def Command.close_fds (c : CommandModel) (r : AnyRange) (rlim : Except Int Nat) :
    Except String CommandModel :=
  match r with
  | .range x y =>
    if 3 ≤ x then .ok { c with close_fds := c.close_fds ++ [(x, y)] }
    else .error "assertion failed: x >= 3"
  | .rangeFrom x =>
    if 3 ≤ x then
      match rlim with
      | .error _ => .error "cannot get rlimit"
      | .ok cur => .ok { c with close_fds := c.close_fds ++ [(x, toI32 cur)] }
    else .error "assertion failed: x >= 3"

/-- C8: `..N` is stored as `(3, N)`; `N..` and `..` store the soft
`RLIMIT_NOFILE` resolved at the moment of the call as the upper bound
(exactly, whenever it is representable in an `i32`); a lower bound below
3 panics; each successful call appends exactly one pair. -/
theorem close_fds_ranges (c : CommandModel) (x y : Int) (cur : Nat)
    (rl : Except Int Nat) (hx : 3 ≤ x) (hcur : cur < 2 ^ 31) :
    Command.close_fds c (anyRange_of_rangeTo y) rl
      = .ok { c with close_fds := c.close_fds ++ [(3, y)] } ∧
    Command.close_fds c (anyRange_of_rangeFrom x) (.ok cur)
      = .ok { c with close_fds := c.close_fds ++ [(x, (cur : Int))] } ∧
    Command.close_fds c anyRange_of_rangeFull (.ok cur)
      = .ok { c with close_fds := c.close_fds ++ [(3, (cur : Int))] } ∧
    Command.close_fds c (anyRange_of_range x y) rl
      = .ok { c with close_fds := c.close_fds ++ [(x, y)] } ∧
    (∀ x2 : Int, x2 < 3 →
      (∃ msg, Command.close_fds c (anyRange_of_range x2 y) rl = .error msg) ∧
      (∃ msg, Command.close_fds c (anyRange_of_rangeFrom x2) rl = .error msg)) := by
  have hto : toI32 cur = (cur : Int) := by
    unfold toI32
    have hm : cur % 2 ^ 32 = cur := Nat.mod_eq_of_lt (by omega)
    rw [hm]
    rw [if_pos (by omega)]
  refine ⟨?_, ?_, ?_, ?_, ?_⟩
  · simp [Command.close_fds, anyRange_of_rangeTo]
  · simp [Command.close_fds, anyRange_of_rangeFrom, hx, hto]
  · simp [Command.close_fds, anyRange_of_rangeFull, hto]
  · simp [Command.close_fds, anyRange_of_range, hx]
  · intro x2 hx2
    constructor
    · refine ⟨"assertion failed: x >= 3", ?_⟩
      simp [Command.close_fds, anyRange_of_range, show ¬ (3 ≤ x2) by omega]
    · refine ⟨"assertion failed: x >= 3", ?_⟩
      simp [Command.close_fds, anyRange_of_rangeFrom, show ¬ (3 ≤ x2) by omega]

/-- Concrete instance of `close_fds_ranges` at lower bound 5, upper
bound 10, soft limit 1024. -/
theorem close_fds_ranges_witness :
    (3 : Int) ≤ 5 ∧ (1024 : Nat) < 2 ^ 31 ∧
    Command.close_fds { fds := [], close_fds := [] }
      (anyRange_of_rangeFrom 5) (.ok 1024)
      = .ok { fds := [], close_fds := [(5, 1024)] } :=
  ⟨by norm_num, by norm_num,
   (close_fds_ranges { fds := [], close_fds := [] } 5 10 1024 (.ok 1024)
     (by norm_num) (by norm_num)).2.1⟩

/-- `HashMap::insert`: replace the binding if the key is present,
otherwise add it. -/
def insertAssoc : List (Int × FdKind) → Int → FdKind → List (Int × FdKind)
  | [], k, v => [(k, v)]
  | (k2, v2) :: rest, k, v =>
    if k2 = k then (k, v) :: rest else (k2, v2) :: insertAssoc rest k v

/-- `HashMap` lookup over the association-list model. -/
def lookupAssoc : List (Int × FdKind) → Int → Option FdKind
  | [], _ => none
  | (k2, v2) :: rest, k => if k2 = k then some v2 else lookupAssoc rest k

theorem lookupAssoc_insertAssoc (l : List (Int × FdKind)) (k : Int) (v : FdKind) :
    lookupAssoc (insertAssoc l k v) k = some v := by
  induction l with
  | nil => simp [insertAssoc, lookupAssoc]
  | cons p rest ih =>
    obtain ⟨k2, v2⟩ := p
    unfold insertAssoc
    split
    · simp [lookupAssoc]
    · rename_i hne
      unfold lookupAssoc
      rw [if_neg hne]
      exact ih

/-- src/fds.rs `Command::file_descriptor` lines 29-39: `target_fd <= 2`
panics (stdio must be configured via stdin/stdout/stderr); otherwise the
intent is inserted into the fd map and the builder is returned. -/
def Command.file_descriptor (c : CommandModel) (target_fd : Int) (cfg : FdKind) :
    Except String CommandModel :=
  if target_fd ≤ 2 then
    .error "Stdio file descriptors must be configured with respective methods"
  else .ok { c with fds := insertAssoc c.fds target_fd cfg }

/-- C10: `file_descriptor` panics for every target fd at most 2 and, for
every target fd of 3 or more and every starting map, totally inserts the
intent (the inserted binding is retrievable) and returns the command. -/
theorem file_descriptor_guard (c : CommandModel) (t : Int) (cfg : FdKind) :
    (t ≤ 2 → ∃ msg, Command.file_descriptor c t cfg = .error msg) ∧
    (3 ≤ t → Command.file_descriptor c t cfg
        = .ok { c with fds := insertAssoc c.fds t cfg } ∧
      lookupAssoc (insertAssoc c.fds t cfg) t = some cfg) := by
  constructor
  · intro ht
    refine ⟨"Stdio file descriptors must be configured with respective methods", ?_⟩
    unfold Command.file_descriptor
    rw [if_pos ht]
  · intro ht
    constructor
    · unfold Command.file_descriptor
      rw [if_neg (by omega)]
    · exact lookupAssoc_insertAssoc c.fds t cfg

/-- Concrete instance of `file_descriptor_guard`: fd 1 panics, fd 5 is
inserted. -/
theorem file_descriptor_guard_witness :
    (∃ msg, Command.file_descriptor { fds := [], close_fds := [] } 1 FdKind.readPipe
      = .error msg) ∧
    Command.file_descriptor { fds := [], close_fds := [] } 5 FdKind.readPipe
      = .ok { fds := [(5, FdKind.readPipe)], close_fds := [] } :=
  ⟨(file_descriptor_guard { fds := [], close_fds := [] } 1 FdKind.readPipe).1 (by norm_num),
   ((file_descriptor_guard { fds := [], close_fds := [] } 5 FdKind.readPipe).2 (by norm_num)).1⟩

/-- What `waitpid` reported for the child, as matched by src/wait.rs
`Child::_wait` lines 41-48: a normal exit with the raw status `i32`, or
death by signal. -/
inductive WaitStatusM where
  | exited (pid : Int) (status : Int)
  | signaled (pid : Int) (sig : Nat) (core : Bool)
deriving DecidableEq, Repr

/-- Rust's truncating cast `as i8` of an `i32` value. -/
def toI8 (x : Int) : Int :=
  if x % 256 < 128 then x % 256 else x % 256 - 256

/-- src/wait.rs `Child::_wait` lines 41-48: `Exited(x, status)` is stored
as `ExitStatus::Exited(status as i8)`; `Signaled` keeps signal and
core-dump flag. -/
def wait_translate : WaitStatusM → ExitStatusM
  | .exited _ status => .Exited (toI8 status)
  | .signaled _ sig core => .Signaled sig core

/-- src/status.rs `ExitStatus::code` lines 24-29 (`e as i32` preserves
the `i8` value). -/
def ExitStatusM.code : ExitStatusM → Option Int
  | .Exited e => some e
  | .Signaled _ _ => none

/-- C9: `Child::wait` truncates the kernel exit code to a signed 8-bit
value, so every exit code in 128..=255 is reported as the negative
number `code - 256` by `ExitStatus::code()`. -/
theorem wait_truncates_high_exit_codes (pid c : Int)
    (h1 : 128 ≤ c) (h2 : c ≤ 255) :
    wait_translate (.exited pid c) = .Exited (c - 256) ∧
    ExitStatusM.code (wait_translate (.exited pid c)) = some (c - 256) ∧
    c - 256 < 0 := by
  have ht : toI8 c = c - 256 := by
    unfold toI8
    split <;> omega
  refine ⟨?_, ?_, by omega⟩
  · simp [wait_translate, ht]
  · simp [wait_translate, ExitStatusM.code, ht]

/-- Concrete instance of `wait_truncates_high_exit_codes`: kernel exit
code 255 is reported as -1. -/
theorem wait_truncates_high_exit_codes_witness :
    (128 : Int) ≤ 255 ∧ (255 : Int) ≤ 255 ∧
    ExitStatusM.code (wait_translate (.exited 42 255)) = some (-1) :=
  ⟨by norm_num, by norm_num, by
    have h := (wait_truncates_high_exit_codes 42 255 (by norm_num) (by norm_num)).2.1
    simpa using h⟩

/-- Concrete instance of `default_fd_table`: resetting a command with a
custom fd 7 and a close range restores the three-entry stdio table. -/
theorem default_fd_table_witness :
    (Command.reset_fds { fds := [(7, FdKind.readPipe)], close_fds := [(3, 100)] }).fds
      = [(0, .inherit), (1, .inherit), (2, .inherit)] ∧
    (Command.reset_fds { fds := [(7, FdKind.readPipe)], close_fds := [(3, 100)] }).close_fds
      = [] :=
  ⟨(default_fd_table { fds := [(7, FdKind.readPipe)], close_fds := [(3, 100)] }).2.2.1,
   (default_fd_table { fds := [(7, FdKind.readPipe)], close_fds := [(3, 100)] }).2.2.2⟩
